import Mathlib

/-!
Shallow embedding of the RAG pipeline from `notebooks/en/rag_zephyr_langchain.ipynb`.

The notebook is a five-stage linear pipeline: Document Source → Chunker →
Embedder → Vector Index → Generator, wired together with LangChain.  The
notebook itself contains only the orchestration (which component is called,
with which parameters, in which order); the components' implementations
(CharacterTextSplitter, FAISS, the embedding model, the Zephyr LLM) live in
third-party libraries whose code is not part of the repository.  Those
components are therefore modelled here from the specification's description
of them, while the orchestration (the chain wiring, the prompt template, the
retriever configurations, the generation parameters) is translated from the
notebook cells directly.
-/

namespace Rag

/-- A raw text document with its source metadata (spec §3: "raw text +
metadata (source id)"); created by the Document Source, immutable. -/
structure Document where
  text : List Char
  sourceId : Nat
  deriving DecidableEq

/-- A segment: a bounded substring of a Document carrying a back-reference
to its source Document (spec §3). -/
structure Segment where
  text : List Char
  docRef : Nat
  deriving DecidableEq

/-- Modelled from the spec: the Chunker policy of §4.1 (the notebook calls
`CharacterTextSplitter(chunk_size=512, chunk_overlap=30)`, whose
implementation is not in the repository).  "Walk each Document's text
producing fixed-size windows advanced by (max length − overlap); the final
window may be shorter than max length.  Edge case: a Document shorter than
max length yields exactly one Segment equal to the whole Document."
`m` is the maximum chunk length, `o` the overlap. -/
def chunkText (m o : Nat) (s : List Char) : List (List Char) :=
  if h : s.length ≤ m ∨ m - o = 0 then [s]
  else s.take m :: chunkText m o (s.drop (m - o))
termination_by s.length
decreasing_by
  push_neg at h
  simp only [List.length_drop]
  omega

/-- The number of segments the Chunker produces, as a function of the text
length only (same recursion as `chunkText`). -/
def chunkCount (m o L : Nat) : Nat :=
  if L ≤ m ∨ m - o = 0 then 1
  else 1 + chunkCount m o (L - (m - o))
termination_by L

/-- The Chunker applied to one Document: each window becomes a Segment with
a back-reference to the source Document (spec §4.1, §3). -/
def chunkDocument (m o : Nat) (d : Document) : List Segment :=
  (chunkText m o d.text).map (fun t => ⟨t, d.sourceId⟩)

theorem chunkText_length (m o : Nat) (s : List Char) :
    (chunkText m o s).length = chunkCount m o s.length := by
  induction s using chunkText.induct m o with
  | case1 s h =>
    rw [chunkText, chunkCount]
    simp [h]
  | case2 s h ih =>
    rw [chunkText, chunkCount]
    simp only [h, dite_false, if_false, List.length_cons]
    rw [ih]
    simp only [List.length_drop]
    omega

theorem chunkCount_eq_ceil (m o : Nat) (ho : o < m) :
    ∀ L, o < L → chunkCount m o L = (L - o + (m - o) - 1) / (m - o) := by
  intro L
  induction L using Nat.strong_induction_on with
  | _ L ih =>
    intro hL
    rw [chunkCount]
    by_cases hbase : L ≤ m
    · simp only [hbase, true_or, if_true]
      exact (Nat.div_eq_of_lt_le (by omega) (by omega)).symm
    · simp only [hbase, false_or, if_false]
      have hstep : m - o ≠ 0 := by omega
      simp only [hstep, if_false]
      have ihL : chunkCount m o (L - (m - o)) =
          (L - (m - o) - o + (m - o) - 1) / (m - o) := by
        apply ih
        · omega
        · omega
      rw [ihL]
      have hsplit : L - o + (m - o) - 1 = (L - (m - o) - o + (m - o) - 1) + (m - o) := by
        omega
      rw [hsplit, Nat.add_div_right _ (by omega : 0 < m - o)]
      omega

/-- Bridge between the natural-number ceiling division `(a + b - 1) / b` and
the rational ceiling `⌈a / b⌉`. -/
theorem ceil_div_nat (a b : Nat) (hb : 0 < b) :
    ⌈(a : ℚ) / (b : ℚ)⌉ = (((a + b - 1) / b : ℕ) : ℤ) := by
  have hbq : (0 : ℚ) < (b : ℚ) := by exact_mod_cast hb
  rw [Int.ceil_eq_iff]
  have hdm := Nat.div_add_mod (a + b - 1) b
  have hmod : (a + b - 1) % b < b := Nat.mod_lt _ hb
  have hn1 : b * ((a + b - 1) / b) < a + b := by omega
  have hn2 : a ≤ b * ((a + b - 1) / b) := by omega
  set n := (a + b - 1) / b with hn
  constructor
  · rw [lt_div_iff₀ hbq]
    have hq1 : (b : ℚ) * (n : ℚ) < (a : ℚ) + (b : ℚ) := by exact_mod_cast hn1
    push_cast
    nlinarith [hq1]
  · rw [div_le_iff₀ hbq]
    have hq2 : (a : ℚ) ≤ (b : ℚ) * (n : ℚ) := by exact_mod_cast hn2
    push_cast
    nlinarith [hq2]

theorem chunkText_getD (m o : Nat) (ho : o < m) (s : List Char) :
    ∀ i < (chunkText m o s).length,
      (chunkText m o s).getD i [] = (s.drop (i * (m - o))).take m := by
  induction s using chunkText.induct m o with
  | case1 s h =>
    intro i hi
    rw [chunkText, dif_pos h] at hi ⊢
    have hle : s.length ≤ m := by omega
    obtain rfl : i = 0 := by simpa using hi
    simpa using (List.take_of_length_le hle).symm
  | case2 s h ih =>
    intro i hi
    rw [chunkText, dif_neg h] at hi ⊢
    match i with
    | 0 => simp
    | i + 1 =>
      have hi' : i < (chunkText m o (s.drop (m - o))).length := by
        simpa using hi
      have := ih i hi'
      simp only [List.getD_cons_succ, this, List.drop_drop]
      congr 1
      ring_nf

theorem chunkText_full_windows (m o : Nat) (s : List Char) :
    ∀ i, i + 1 < (chunkText m o s).length →
      ((chunkText m o s).getD i []).length = m := by
  induction s using chunkText.induct m o with
  | case1 s h =>
    intro i hi
    rw [chunkText, dif_pos h] at hi
    simp at hi
  | case2 s h ih =>
    intro i hi
    rw [chunkText, dif_neg h] at hi ⊢
    match i with
    | 0 =>
      push_neg at h
      simp only [List.getD_cons_zero, List.length_take]
      omega
    | i + 1 =>
      exact ih i (by simpa using hi)

theorem chunkText_window_le (m o : Nat) (ho : o < m) (s : List Char) :
    ∀ c ∈ chunkText m o s, c.length ≤ m := by
  induction s using chunkText.induct m o with
  | case1 s h =>
    intro c hc
    rw [chunkText, dif_pos h] at hc
    simp only [List.mem_singleton] at hc
    subst hc
    omega
  | case2 s h ih =>
    intro c hc
    rw [chunkText, dif_neg h] at hc
    rcases List.mem_cons.mp hc with rfl | hc
    · simp
    · exact ih c hc

/-- C2 (amended): for every Document whose text length `L` exceeds the
overlap `o`, with `o < m`, the Chunker produces exactly `⌈(L − o) / (m − o)⌉`
Segments, obtained as fixed-size windows over the text advanced by `m − o`
(window `i` is `take m` after dropping `i * (m − o)` characters), every
non-final window having length exactly `m` and every window at most `m`.
The claim as frozen omits the `o < L` hypothesis and fails at the empty
Document (see the counterexample theorem). -/
theorem chunker_count_and_windows (m o : Nat) (d : Document)
    (ho : o < m) (hL : o < d.text.length) :
    (((chunkDocument m o d).length : ℤ)
        = ⌈((d.text.length : ℚ) - (o : ℚ)) / ((m : ℚ) - (o : ℚ))⌉)
    ∧ (chunkDocument m o d).map Segment.text = chunkText m o d.text
    ∧ (∀ i < (chunkText m o d.text).length,
        (chunkText m o d.text).getD i [] = (d.text.drop (i * (m - o))).take m)
    ∧ (∀ i, i + 1 < (chunkText m o d.text).length →
        ((chunkText m o d.text).getD i []).length = m)
    ∧ (∀ c ∈ chunkText m o d.text, c.length ≤ m) := by
  refine ⟨?_, ?_, chunkText_getD m o ho d.text, chunkText_full_windows m o d.text,
    chunkText_window_le m o ho d.text⟩
  · rw [show ((d.text.length : ℚ) - (o : ℚ)) = ((d.text.length - o : ℕ) : ℚ) by
          rw [Nat.cast_sub (le_of_lt hL)],
        show ((m : ℚ) - (o : ℚ)) = ((m - o : ℕ) : ℚ) by
          rw [Nat.cast_sub (le_of_lt ho)],
        ceil_div_nat (d.text.length - o) (m - o) (by omega)]
    rw [chunkDocument, List.length_map, chunkText_length,
      chunkCount_eq_ceil m o ho _ hL]
  · simp [chunkDocument, List.map_map, Function.comp_def]

/-- C2 witness: the amended claim applied at a three-character document with
`m = 2`, `o = 1`. -/
theorem chunker_count_and_windows_witness :
    1 < 2 ∧ 1 < (⟨['a', 'b', 'c'], 0⟩ : Document).text.length ∧
    ((((chunkDocument 2 1 ⟨['a', 'b', 'c'], 0⟩).length : ℤ)
        = ⌈(((⟨['a', 'b', 'c'], 0⟩ : Document).text.length : ℚ) - (1 : ℚ))
            / ((2 : ℚ) - (1 : ℚ))⌉)
     ∧ (chunkDocument 2 1 ⟨['a', 'b', 'c'], 0⟩).map Segment.text
         = chunkText 2 1 (⟨['a', 'b', 'c'], 0⟩ : Document).text
     ∧ (∀ i < (chunkText 2 1 (⟨['a', 'b', 'c'], 0⟩ : Document).text).length,
         (chunkText 2 1 (⟨['a', 'b', 'c'], 0⟩ : Document).text).getD i []
           = ((⟨['a', 'b', 'c'], 0⟩ : Document).text.drop (i * (2 - 1))).take 2)
     ∧ (∀ i, i + 1 < (chunkText 2 1 (⟨['a', 'b', 'c'], 0⟩ : Document).text).length →
         ((chunkText 2 1 (⟨['a', 'b', 'c'], 0⟩ : Document).text).getD i []).length = 2)
     ∧ (∀ c ∈ chunkText 2 1 (⟨['a', 'b', 'c'], 0⟩ : Document).text, c.length ≤ 2)) :=
  ⟨by decide, by decide,
    chunker_count_and_windows 2 1 ⟨['a', 'b', 'c'], 0⟩ (by decide) (by decide)⟩

/-- C2 counterexample: at the empty Document with `m = 2`, `o = 1` the
Chunker produces one Segment (the whole, empty, document) while
`⌈(L − o) / (m − o)⌉ = ⌈(0 − 1) / 1⌉ = −1`, so the frozen count formula is
violated. -/
theorem chunker_count_claim_counterexample :
    ((chunkDocument 2 1 ⟨[], 0⟩).length : ℤ)
      ≠ ⌈(((⟨[], 0⟩ : Document).text.length : ℚ) - (1 : ℚ)) / ((2 : ℚ) - (1 : ℚ))⌉ := by
  have h1 : chunkDocument 2 1 ⟨[], 0⟩ = [⟨[], 0⟩] := by
    rw [chunkDocument, chunkText,
      dif_pos (Or.inl (by simp : (⟨[], 0⟩ : Document).text.length ≤ 2))]
    rfl
  rw [h1,
    show (((⟨[], 0⟩ : Document).text.length : ℚ) - (1 : ℚ)) / ((2 : ℚ) - (1 : ℚ))
        = ((-1 : ℤ) : ℚ) by norm_num,
    Int.ceil_intCast]
  decide

/-- C7: a Document strictly shorter than the maximum chunk length yields
exactly one Segment whose text is the whole Document's text. -/
theorem chunker_short_document (m o : Nat) (d : Document)
    (h : d.text.length < m) :
    chunkDocument m o d = [⟨d.text, d.sourceId⟩] := by
  rw [chunkDocument, chunkText, dif_pos (Or.inl (le_of_lt h))]
  rfl

/-- C7 witness: a one-character document with `m = 2`. -/
theorem chunker_short_document_witness :
    (⟨['a'], 3⟩ : Document).text.length < 2 ∧
    chunkDocument 2 1 ⟨['a'], 3⟩ = [⟨['a'], 3⟩] :=
  ⟨by decide, chunker_short_document 2 1 ⟨['a'], 3⟩ (by decide)⟩

/-- C3: a 1000-character Document chunked with `m = 512`, `o = 30` yields
exactly 3 Segments of lengths 512, 512 and 36, and the final (shorter)
window's first 30 characters coincide with the last 30 characters of its
predecessor (the 30-character overlap). -/
theorem chunker_1000_512_30 (d : Document) (h : d.text.length = 1000) :
    (chunkDocument 512 30 d).map (fun seg => seg.text.length) = [512, 512, 36]
    ∧ ((chunkText 512 30 d.text).getD 2 []).take 30
        = ((chunkText 512 30 d.text).getD 1 []).drop 482 := by
  have h1 : ¬(d.text.length ≤ 512 ∨ 512 - 30 = 0) := by omega
  have h2 : ¬((d.text.drop (512 - 30)).length ≤ 512 ∨ 512 - 30 = 0) := by
    simp only [List.length_drop]
    omega
  have h3 : ((d.text.drop (512 - 30)).drop (512 - 30)).length ≤ 512 ∨ 512 - 30 = 0 := by
    simp only [List.length_drop]
    omega
  have e : chunkText 512 30 d.text
      = [d.text.take 512, (d.text.drop 482).take 512, (d.text.drop 482).drop 482] := by
    rw [chunkText, dif_neg h1, chunkText, dif_neg h2, chunkText, dif_pos h3]
  constructor
  · simp [chunkDocument, e, h]
  · rw [e]
    simp only [List.getD_cons_succ, List.getD_cons_zero]
    rw [List.drop_take 512 482]

/-- C3 witness: the 1000-character document of `'a'`s. -/
theorem chunker_1000_512_30_witness :
    (⟨List.replicate 1000 'a', 0⟩ : Document).text.length = 1000 ∧
    ((chunkDocument 512 30 ⟨List.replicate 1000 'a', 0⟩).map
        (fun seg => seg.text.length) = [512, 512, 36]
      ∧ ((chunkText 512 30 (⟨List.replicate 1000 'a', 0⟩ : Document).text).getD 2 []).take 30
          = ((chunkText 512 30 (⟨List.replicate 1000 'a', 0⟩ : Document).text).getD 1 []).drop 482) :=
  ⟨show (List.replicate 1000 'a').length = 1000 by rw [List.length_replicate],
    chunker_1000_512_30 ⟨List.replicate 1000 'a', 0⟩
      (show (List.replicate 1000 'a').length = 1000 by rw [List.length_replicate])⟩

/-- Squared Euclidean distance between two embedding vectors, with exact
integer coordinates standing in for the floating-point coordinates of the
embedding model (spec §3: "fixed-length ordered sequence of numbers").
Distance 0 corresponds to the spec's "distance ≈ 0". -/
def sqDist (a b : List Int) : Nat :=
  ((a.zip b).map (fun p => (p.1 - p.2).natAbs ^ 2)).sum

/-- Comparison of retrieval results by distance; used to order the Vector
Index's answers (spec §4.3: "the k closest Segments by a fixed distance
metric, ties broken by insertion order"). -/
def distLE (a b : Segment × Nat) : Prop := a.2 ≤ b.2

instance : DecidableRel distLE := fun a b => Nat.decLe a.2 b.2

instance : IsTotal (Segment × Nat) distLE := ⟨fun a b => Nat.le_total a.2 b.2⟩

instance : IsTrans (Segment × Nat) distLE := ⟨fun _ _ _ => Nat.le_trans⟩

/-- Modelled from the spec: the Vector Index of §4.3 (the notebook's FAISS
database, whose implementation is not in the repository).  The index is the
list of (vector, segment) pairs inserted in bulk at build time;
`queryIndex idx q k` returns the ordered sequence of the k closest Segments
with their distances, ties broken by insertion order (stable insertion
sort), and "querying an empty index signals an explicit error rather than
returning an empty sequence silently". -/
def queryIndex (idx : List (List Int × Segment)) (q : List Int) (k : Nat) :
    Except String (List (Segment × Nat)) :=
  if idx.isEmpty then .error "query on empty index"
  else .ok (((idx.map (fun p => (p.2, sqDist p.1 q))).insertionSort distLE).take k)

theorem sqDist_self (a : List Int) : sqDist a a = 0 := by
  induction a with
  | nil => rfl
  | cons x xs ih =>
    simp only [sqDist, List.zip_cons_cons, List.map_cons, List.sum_cons,
      Int.sub_self, Int.natAbs_zero] at ih ⊢
    simpa using ih

theorem sqDist_eq_zero (a b : List Int) (hlen : a.length = b.length)
    (h : sqDist a b = 0) : a = b := by
  induction a generalizing b with
  | nil =>
    cases b with
    | nil => rfl
    | cons y ys => simp at hlen
  | cons x xs ih =>
    cases b with
    | nil => simp at hlen
    | cons y ys =>
      simp only [sqDist, List.zip_cons_cons, List.map_cons, List.sum_cons] at h
      have hx : (x - y).natAbs ^ 2 = 0 := by omega
      have hxy : x = y := by
        have : (x - y).natAbs = 0 := by
          nlinarith [Nat.zero_le ((x - y).natAbs)]
        omega
      have hrest : sqDist xs ys = 0 := by
        simp only [sqDist]
        omega
      have hl : xs.length = ys.length := by simpa using hlen
      rw [hxy, ih ys hl hrest]

/-- C4: querying the Vector Index when it contains zero entries signals an
explicit error to the caller and never returns a (silently empty) sequence
of results. -/
theorem query_empty_index (q : List Int) (k : Nat) :
    queryIndex [] q k = .error "query on empty index"
    ∧ ∀ rs : List (Segment × Nat), queryIndex [] q k ≠ .ok rs := by
  refine ⟨rfl, fun rs h => ?_⟩
  simp [queryIndex] at h

/-- C5 counterexample: the round-trip claim as frozen fails when two pairs
share the same vector and k is small.  With the pairs `([0], s₁)` and
`([0], s₂)` inserted and `k = 1`, querying with the inserted vector `[0]`
returns only `s₁`; the inserted pair `([0], s₂)` has its segment absent from
the top-k results. -/
theorem index_roundtrip_counterexample :
    (([0], (⟨['b'], 1⟩ : Segment))
        ∈ ([([0], ⟨['a'], 0⟩), ([0], ⟨['b'], 1⟩)] : List (List Int × Segment)))
    ∧ queryIndex [([0], ⟨['a'], 0⟩), ([0], ⟨['b'], 1⟩)] [0] 1
        = .ok [(⟨['a'], 0⟩, 0)]
    ∧ (⟨['a'], 0⟩ : Segment) ≠ ⟨['b'], 1⟩ := by
  refine ⟨by decide, ?_, by decide⟩
  rfl

/-- C5 (amended): if the inserted vectors are pairwise distinct and all of
the query's dimension, then for every inserted pair (v, s), querying the
index with v for k ≥ 1 results returns s among the top-k results with
distance exactly 0.  The claim as frozen, with no distinctness requirement,
fails when several pairs share a vector (see the counterexample theorem). -/
theorem index_roundtrip (idx : List (List Int × Segment)) (v : List Int)
    (s : Segment) (k : Nat)
    (hmem : (v, s) ∈ idx)
    (hnodup : (idx.map Prod.fst).Nodup)
    (hdim : ∀ p ∈ idx, p.1.length = v.length)
    (hk : 1 ≤ k) :
    ∃ rs, queryIndex idx v k = .ok rs ∧ (s, 0) ∈ rs := by
  have hne : idx.isEmpty = false := by
    cases idx with
    | nil => simp at hmem
    | cons p l => rfl
  set l := idx.map (fun p => (p.2, sqDist p.1 v)) with hl
  have hmem' : (s, 0) ∈ l := by
    rw [hl]
    have : ((v, s).2, sqDist (v, s).1 v) ∈ idx.map (fun p => (p.2, sqDist p.1 v)) :=
      List.mem_map_of_mem _ hmem
    simpa [sqDist_self] using this
  have hperm : List.Perm (l.insertionSort distLE) l := List.perm_insertionSort distLE l
  have hsorted : List.Sorted distLE (l.insertionSort distLE) :=
    List.sorted_insertionSort distLE l
  have hmem'' : (s, 0) ∈ l.insertionSort distLE := hperm.mem_iff.mpr hmem'
  obtain ⟨hd, tl, hcons⟩ : ∃ hd tl, l.insertionSort distLE = hd :: tl := by
    cases hsort : l.insertionSort distLE with
    | nil => rw [hsort] at hmem''; simp at hmem''
    | cons hd tl => exact ⟨hd, tl, rfl⟩
  have hhd0 : hd.2 = 0 := by
    rw [hcons] at hmem'' hsorted
    rcases List.mem_cons.mp hmem'' with h | h
    · rw [← h]
    · have := List.rel_of_sorted_cons hsorted _ h
      simpa [distLE] using this
  have hhdl : hd ∈ l := hperm.mem_iff.mp (by rw [hcons]; exact List.mem_cons_self hd tl)
  obtain ⟨p, hp, hfp⟩ : ∃ p ∈ idx, (p.2, sqDist p.1 v) = hd := by
    rw [hl] at hhdl
    simpa using List.mem_map.mp hhdl
  have hpd : sqDist p.1 v = 0 := by
    rw [← hhd0, ← hfp]
  have hpv : p.1 = v := sqDist_eq_zero p.1 v (hdim p hp) hpd
  have hps : p = (v, s) := by
    apply List.inj_on_of_nodup_map hnodup hp hmem
    rw [hpv]
  have hhd : hd = (s, 0) := by
    rw [← hfp, hps, sqDist_self]
  refine ⟨(l.insertionSort distLE).take k, ?_, ?_⟩
  · rw [queryIndex, hne]
    simp
  · obtain ⟨k', rfl⟩ : ∃ k', k = k' + 1 := ⟨k - 1, by omega⟩
    rw [hcons, List.take_succ_cons, hhd]
    exact List.mem_cons_self _ _

/-- C5 witness: two pairs with distinct one-dimensional vectors; querying
with the second pair's vector at k = 1 returns that pair's segment at
distance 0. -/
theorem index_roundtrip_witness :
    (([1], (⟨['b'], 1⟩ : Segment))
        ∈ ([([0], ⟨['a'], 0⟩), ([1], ⟨['b'], 1⟩)] : List (List Int × Segment)))
    ∧ (([([0], ⟨['a'], 0⟩), ([1], ⟨['b'], 1⟩)] : List (List Int × Segment)).map
        Prod.fst).Nodup
    ∧ (∀ p ∈ ([([0], ⟨['a'], 0⟩), ([1], ⟨['b'], 1⟩)] : List (List Int × Segment)),
        p.1.length = [(1 : Int)].length)
    ∧ (1 : Nat) ≤ 1
    ∧ ∃ rs, queryIndex [([0], ⟨['a'], 0⟩), ([1], ⟨['b'], 1⟩)] [1] 1 = .ok rs
        ∧ ((⟨['b'], 1⟩ : Segment), 0) ∈ rs :=
  ⟨by decide, by decide, by decide, by decide,
    index_roundtrip [([0], ⟨['a'], 0⟩), ([1], ⟨['b'], 1⟩)] [1] ⟨['b'], 1⟩ 1
      (by decide) (by decide) (by decide) (by decide)⟩

/-- The generation parameters of the notebook's text-generation pipeline
(temperature, sampling switch, repetition penalty, full-text return, output
length cap), as enumerated in the `pipeline(...)` call. -/
structure GenParams where
  temperature : ℚ
  do_sample : Bool
  repetition_penalty : ℚ
  return_full_text : Bool
  max_new_tokens : Nat
  deriving DecidableEq

/-- The concrete parameter values of the notebook's
`text_generation_pipeline` cell: temperature=0.2, do_sample=True,
repetition_penalty=1.1, return_full_text=True, max_new_tokens=400. -/
def notebookGenParams : GenParams :=
  { temperature := 2 / 10, do_sample := true, repetition_penalty := 11 / 10,
    return_full_text := true, max_new_tokens := 400 }

/-- Modelled from the spec: the language model behind the notebook's
`HuggingFacePipeline` (the Zephyr model, not part of the repository).
Spec §4.2/§8: the model is deterministic given fixed weights; when sampling
is enabled the decode additionally draws from a pseudo-random source,
modelled as a seed argument consumed only by the sampling decode. -/
structure GenModel where
  greedy : String → String
  sampled : Nat → String → String

/-- Run the generator on a prompt: a sampling decode uses the seed, a
greedy decode (sampling disabled) ignores it. -/
def runGen (g : GenModel) (params : GenParams) (seed : Nat)
    (prompt : String) : String :=
  if params.do_sample then g.sampled seed prompt else g.greedy prompt

/-- The notebook's prompt template (the `prompt_template` string of the
"Setup the LLM chain" cell), with the context and question substituted for
its two placeholders. -/
def prompt_template (context question : String) : String :=
  "\n<|system|>\nAnswer the question based on your knowledge. Use the following context to help:\n\n"
    ++ context
    ++ "\n\n</s>\n<|user|>\n"
    ++ question
    ++ "\n</s>\n<|assistant|>\n\n "

/-- The notebook's `llm_chain = prompt | llm | StrOutputParser()`: format
the prompt from {context, question}, run the model, and return its text
output (the output parser is the identity on the modelled text). -/
def llm_chain (g : GenModel) (params : GenParams) (seed : Nat)
    (context question : String) : String :=
  runGen g params seed (prompt_template context question)

/-- A retriever configuration: the search type and the number of results,
as passed to `db.as_retriever`. -/
structure RetrieverCfg where
  search_type : String
  k : Nat
  deriving DecidableEq

/-- Modelled from the spec: LangChain's `db.as_retriever` with its optional
arguments; with no arguments it defaults to similarity search returning the
top 4 results (spec §4.5: "query the index (4.3) for k=4 nearest
Segments"). -/
def as_retriever (search_type : Option String) (k : Option Nat) : RetrieverCfg :=
  { search_type := search_type.getD "similarity", k := k.getD 4 }

/-- The retriever configured explicitly in the notebook:
`db.as_retriever(search_type="similarity", search_kwargs={'k': 4})`. -/
def retriever_explicit : RetrieverCfg := as_retriever (some "similarity") (some 4)

/-- The retriever re-created with `db.as_retriever()` and no arguments in
the cell that assembles the RAG chain; this re-binding shadows
`retriever_explicit` and is the one the chain closes over. -/
def retriever_final : RetrieverCfg := as_retriever none none

/-- Run a retriever over the index: the ordered sequence of the top-k
Segments for the query embedding (distances are dropped: LangChain
retrievers return documents). -/
def runRetriever (cfg : RetrieverCfg) (idx : List (List Int × Segment))
    (q : List Int) : Except String (List Segment) :=
  (queryIndex idx q cfg.k).map (fun rs => rs.map Prod.fst)

/-- The assembled pipeline state: the embedding model of §4.2 (an abstract
function, its implementation is not in the repository), the built vector
index, and the generator model. -/
structure Pipeline where
  embed : String → List Int
  index : List (List Int × Segment)
  gen : GenModel

/-- The retrieved Segments joined into the context string placed into the
prompt (spec §4.4: the Retrieved Context is the ordered sequence of Segment
texts). -/
def combineContext (segs : List Segment) : String :=
  String.intercalate "\n\n" (segs.map (fun seg => String.mk seg.text))

/-- The notebook's
`rag_chain = {context: retriever, question: RunnablePassthrough()} | llm_chain`,
the single entry point `answer(question) → text` of spec §4.5: embed the
question, retrieve with the (argument-less) final retriever, hand
{context, question} to the generator chain. -/
def answer (p : Pipeline) (params : GenParams) (seed : Nat)
    (question : String) : Except String String :=
  match runRetriever retriever_final p.index (p.embed question) with
  | .error e => .error e
  | .ok segs => .ok (llm_chain p.gen params seed (combineContext segs) question)

/-- C1: for every question (against the built, non-empty index), the single
entry point `answer(question)` returns exactly the generator chain's text
output on {context, question}, where the context is the sequence of the
k = 4 Segments nearest to the embedded question, in distance order. -/
theorem answer_is_retrieve_then_generate (p : Pipeline) (params : GenParams)
    (seed : Nat) (question : String) (hne : p.index ≠ []) :
    answer p params seed question
      = .ok (llm_chain p.gen params seed
          (combineContext
            ((((p.index.map
                  (fun e => (e.2, sqDist e.1 (p.embed question)))).insertionSort
                distLE).take 4).map Prod.fst))
          question) := by
  have hfalse : p.index.isEmpty = false := by
    cases hidx : p.index with
    | nil => exact absurd hidx hne
    | cons a l => rfl
  rw [answer, runRetriever, queryIndex, hfalse]
  rfl

/-- C1 witness: a one-entry pipeline with a constant embedder and an echo
generator. -/
theorem answer_is_retrieve_then_generate_witness :
    (Pipeline.mk (fun _ => [0]) [([0], ⟨['a'], 0⟩)] ⟨fun s => s, fun _ s => s⟩).index ≠ []
    ∧ answer (Pipeline.mk (fun _ => [0]) [([0], ⟨['a'], 0⟩)] ⟨fun s => s, fun _ s => s⟩)
        notebookGenParams 0 "q"
      = .ok (llm_chain
          (Pipeline.mk (fun _ => [0]) [([0], ⟨['a'], 0⟩)]
            ⟨fun s => s, fun _ s => s⟩).gen
          notebookGenParams 0
          (combineContext
            (((((Pipeline.mk (fun _ => [0]) [([0], ⟨['a'], 0⟩)]
                    ⟨fun s => s, fun _ s => s⟩).index.map
                  (fun e => (e.2, sqDist e.1
                    ((Pipeline.mk (fun _ => [0]) [([0], ⟨['a'], 0⟩)]
                      ⟨fun s => s, fun _ s => s⟩).embed "q")))).insertionSort
                distLE).take 4).map Prod.fst))
          "q") :=
  ⟨by simp,
    answer_is_retrieve_then_generate
      (Pipeline.mk (fun _ => [0]) [([0], ⟨['a'], 0⟩)] ⟨fun s => s, fun _ s => s⟩)
      notebookGenParams 0 "q" (by simp)⟩

/-- C6: two invocations of `answer` on an unchanged pipeline with fixed
generation parameters whose sampling is disabled produce identical output
text, whatever pseudo-random seeds the two runs draw. -/
theorem answer_deterministic (p : Pipeline) (params : GenParams)
    (seed1 seed2 : Nat) (question : String)
    (h : params.do_sample = false) :
    answer p params seed1 question = answer p params seed2 question := by
  rw [answer, answer]
  cases runRetriever retriever_final p.index (p.embed question) with
  | error e => rfl
  | ok segs => simp [llm_chain, runGen, h]

/-- C6 witness: a concrete pipeline queried twice with different seeds under
sampling-disabled parameters. -/
theorem answer_deterministic_witness :
    (GenParams.mk (2 / 10) false (11 / 10) true 400).do_sample = false
    ∧ answer (Pipeline.mk (fun _ => [0]) [([0], ⟨['a'], 0⟩)] ⟨fun s => s, fun _ s => s⟩)
        (GenParams.mk (2 / 10) false (11 / 10) true 400) 0 "q"
      = answer (Pipeline.mk (fun _ => [0]) [([0], ⟨['a'], 0⟩)] ⟨fun s => s, fun _ s => s⟩)
        (GenParams.mk (2 / 10) false (11 / 10) true 400) 1 "q" :=
  ⟨rfl,
    answer_deterministic
      (Pipeline.mk (fun _ => [0]) [([0], ⟨['a'], 0⟩)] ⟨fun s => s, fun _ s => s⟩)
      (GenParams.mk (2 / 10) false (11 / 10) true 400) 0 1 "q" rfl⟩

/-- C8: the generator chain invoked with an empty context string does not
fail: it totally produces an answer text, namely the model's completion of
the prompt whose context section is empty, and that text is independent of
the Vector Index (no retrieved grounding): two pipelines sharing the
generator model but holding different indices produce the same
empty-context answer. -/
theorem llm_chain_empty_context (p1 p2 : Pipeline) (params : GenParams)
    (seed : Nat) (question : String) (h : p1.gen = p2.gen) :
    llm_chain p1.gen params seed "" question
        = llm_chain p2.gen params seed "" question
    ∧ llm_chain p1.gen params seed "" question
        = runGen p1.gen params seed (prompt_template "" question) :=
  ⟨by rw [h], rfl⟩

/-- C8 witness: two pipelines with the same generator, one holding an empty
index and one a non-empty index. -/
theorem llm_chain_empty_context_witness :
    (Pipeline.mk (fun _ => [0]) [] ⟨fun s => s, fun _ s => s⟩).gen
      = (Pipeline.mk (fun _ => [1]) [([0], ⟨['a'], 0⟩)] ⟨fun s => s, fun _ s => s⟩).gen
    ∧ (llm_chain (Pipeline.mk (fun _ => [0]) [] ⟨fun s => s, fun _ s => s⟩).gen
          notebookGenParams 0 "" "q"
        = llm_chain
            (Pipeline.mk (fun _ => [1]) [([0], ⟨['a'], 0⟩)] ⟨fun s => s, fun _ s => s⟩).gen
            notebookGenParams 0 "" "q"
      ∧ llm_chain (Pipeline.mk (fun _ => [0]) [] ⟨fun s => s, fun _ s => s⟩).gen
            notebookGenParams 0 "" "q"
          = runGen (Pipeline.mk (fun _ => [0]) [] ⟨fun s => s, fun _ s => s⟩).gen
              notebookGenParams 0 (prompt_template "" "q")) :=
  ⟨rfl,
    llm_chain_empty_context
      (Pipeline.mk (fun _ => [0]) [] ⟨fun s => s, fun _ s => s⟩)
      (Pipeline.mk (fun _ => [1]) [([0], ⟨['a'], 0⟩)] ⟨fun s => s, fun _ s => s⟩)
      notebookGenParams 0 "q" rfl⟩

/-- One `answer` invocation seen as a state transition on the pipeline:
the call produces its result and the pipeline state it leaves behind, which
is the state it was given — lookup is the only index operation the call
performs (spec §3: the only lifecycle events are insertion at build time
and lookup). -/
def answerStep (st : Pipeline) (c : GenParams × Nat × String) :
    Pipeline × Except String String :=
  (st, answer st c.1 c.2.1 c.2.2)

/-- A sequence of `answer` invocations with the pipeline state threaded
from call to call. -/
def runAnswers (st : Pipeline) :
    List (GenParams × Nat × String) → Pipeline × List (Except String String)
  | [] => (st, [])
  | c :: cs =>
    ((runAnswers (answerStep st c).1 cs).1,
      (answerStep st c).2 :: (runAnswers (answerStep st c).1 cs).2)

/-- C9: the pipeline state — in particular the Vector Index contents —
before and after any sequence of `answer` calls is identical: no entity is
mutated after creation, and answering performs lookups only. -/
theorem index_unchanged_by_answers (p : Pipeline)
    (calls : List (GenParams × Nat × String)) :
    (runAnswers p calls).1 = p ∧ (runAnswers p calls).1.index = p.index := by
  have h : ∀ q : Pipeline, ∀ cs : List (GenParams × Nat × String),
      (runAnswers q cs).1 = q := by
    intro q cs
    induction cs generalizing q with
    | nil => rfl
    | cons c cs ih => simpa [runAnswers, answerStep] using ih q
  exact ⟨h p calls, by rw [h p calls]⟩

/-- C10: the retriever wired into the final RAG chain is the argument-less
`db.as_retriever()` re-binding, which shadows the earlier explicitly
configured similarity/k=4 retriever — and the two configurations coincide
(the defaults are similarity search with k = 4), so on every index and
query embedding the final chain's retriever returns the same ordered
sequence of segments as the explicit one. -/
theorem final_retriever_matches_explicit :
    retriever_final = as_retriever none none
    ∧ retriever_final = retriever_explicit
    ∧ ∀ (idx : List (List Int × Segment)) (q : List Int),
        runRetriever retriever_final idx q = runRetriever retriever_explicit idx q :=
  ⟨rfl, rfl, fun _ _ => rfl⟩

end Rag
